import Mathlib

/-!
Verification of the background analysis coordinator of the ai-saas-extension
repository (src/popup.tsx, class AIService): the content-hash result cache,
the fixed-window rate limiter, the JS string hash, the simulated analysis
path and the AI-response parser.  JavaScript `Map<string, _>` objects are
modelled as association lists in insertion order, `Date.now()` readings as
explicit integer parameters (one per read site), and the awaited analysis
backend as an `Except` parameter (the thrown error or the resolved value).
-/

namespace AISaaS

/-- JS `ToInt32`: wrap an integer into the signed 32-bit range
`[-2^31, 2^31)`, as the `hash & hash` step of `generateContentHash` does. -/
def toInt32 (x : Int) : Int :=
  (x + 2147483648) % 4294967296 - 2147483648

/-- One iteration of the loop in `AIService.generateContentHash`
(src/popup.tsx:867-871): `hash = ((hash << 5) - hash) + char` followed by
`hash = hash & hash`.  `hash << 5` wraps the product `hash * 32` to 32 bits
before the subtraction; the subtraction and addition are exact in JS doubles
at these magnitudes; `hash & hash` wraps the sum back to 32 bits. -/
def jsHashStep (h : Int) (c : Nat) : Int :=
  toInt32 (toInt32 (h * 32) - h + c)

/-- The loop of `generateContentHash` over the remaining character codes. -/
def jsHashAux : List Nat → Int → Int
  | [], h => h
  | c :: rest, h => jsHashAux rest (jsHashStep h c)

/-- `AIService.generateContentHash` (src/popup.tsx:865-873) on a sequence of
UTF-16 code units: fold `jsHashStep` from 0 and render in decimal. -/
def generateContentHashCodes (codes : List Nat) : String :=
  toString (jsHashAux codes 0)

/-- `AIService.generateContentHash` on a string; `charCodeAt` yields UTF-16
code units, modelled by the character values (they agree on BMP text). -/
def generateContentHash (content : String) : String :=
  generateContentHashCodes (content.data.map Char.toNat)

/-- Modelled from the spec (reference definition for the refinement claim
about the hash): fold the text into a 32-bit signed integer via repeated
`hash = hash * 31 + charCode`, truncated to 32 bits. -/
def specHashAux : List Nat → Int → Int
  | [], h => h
  | c :: rest, h => specHashAux rest (toInt32 (h * 31 + c))

/-- Modelled from the spec: the reference hash rendered in decimal. -/
def specHash (codes : List Nat) : String :=
  toString (specHashAux codes 0)

/-- `ContentAnalysis` (src/unnamed/part_004): the analysis payload.
`confidence` is a JS number, modelled as a rational. -/
structure ContentAnalysis where
  summary : String
  sentiment : String
  keyInsights : List String
  confidence : Rat
  actionableItems : List String
  categories : List String
deriving Repr, DecidableEq

/-- `RateLimitEntry` (src/unnamed/part_004:46-49). -/
structure RateLimitEntry where
  timestamp : Int
  count : Nat
deriving Repr, DecidableEq

/-- A value of the `cache` map: `{ data: ContentAnalysis; timestamp: number }`
(src/popup.tsx:767). -/
structure CacheEntry where
  data : ContentAnalysis
  timestamp : Int
deriving Repr, DecidableEq

/-- The two maps owned by `AIService` (src/popup.tsx:766-767), as association
lists in JS `Map` insertion order. -/
structure AIServiceState where
  rateLimiter : List (String × RateLimitEntry)
  cache : List (String × CacheEntry)
deriving Repr, DecidableEq

/-- The state of a freshly constructed `AIService`: both maps empty. -/
def emptyState : AIServiceState := ⟨[], []⟩

/-- JS `Map.get`: the value of the (unique) entry with the given key. -/
def mapGet {α : Type} : List (String × α) → String → Option α
  | [], _ => none
  | p :: rest, k => if p.1 == k then some p.2 else mapGet rest k

/-- JS `Map.set`: overwrite the entry in place (keeping its insertion
position) when the key is present, append a new entry otherwise. -/
def mapSet {α : Type} : List (String × α) → String → α → List (String × α)
  | [], k, v => [(k, v)]
  | p :: rest, k, v =>
    if p.1 == k then (k, v) :: rest else p :: mapSet rest k v

/-- `this.RATE_LIMIT = 10` (src/popup.tsx:768). -/
def RATE_LIMIT : Nat := 10

/-- `this.CACHE_DURATION = 5 * 60 * 1000` (src/popup.tsx:769). -/
def CACHE_DURATION : Int := 5 * 60 * 1000

/-- `const userKey = 'default_user'` (src/popup.tsx:842). -/
def userKey : String := "default_user"

/-- The clean-old-entries loop of `AIService.checkRateLimit`
(src/popup.tsx:844-849): delete every entry with
`entry.timestamp < windowStart` where `windowStart = now - 60000`. -/
def sweepStale (now : Int) (rl : List (String × RateLimitEntry)) :
    List (String × RateLimitEntry) :=
  rl.filter (fun p => ¬ (p.2.timestamp < now - 60000))

/-- `AIService.checkRateLimit` (src/popup.tsx:839-863) with `Date.now()`
passed in as `now`: sweep stale entries, then admit (installing or
incrementing the `default_user` entry) or reject.  Returns the boolean
result and the updated limiter map. -/
def checkRateLimit (now : Int) (rl : List (String × RateLimitEntry)) :
    Bool × List (String × RateLimitEntry) :=
  let cleaned := sweepStale now rl
  match mapGet cleaned userKey with
  | none => (true, mapSet cleaned userKey ⟨now, 1⟩)
  | some e =>
    if e.count ≥ RATE_LIMIT then (false, cleaned)
    else (true, mapSet cleaned userKey ⟨e.timestamp, e.count + 1⟩)

/-- The cache test of `handleContentAnalysis` (src/popup.tsx:820-823):
`cached && (Date.now() - cached.timestamp) < CACHE_DURATION`, returning the
stored data on a hit. -/
def cacheFresh (cache : List (String × CacheEntry)) (h : String)
    (now : Int) : Option ContentAnalysis :=
  match mapGet cache h with
  | some e => if now - e.timestamp < CACHE_DURATION then some e.data else none
  | none => none

/-- The errors `handleContentAnalysis` can reject with: its own rate-limit
`Error`, or the error thrown by the awaited analysis call. -/
inductive AnalysisError where
  | rateLimited
  | backend (msg : String)
deriving Repr, DecidableEq

deriving instance DecidableEq for Except

/-- Input to the coordinator (the fields of `data` that the analysis path
reads).  `forms` is only ever read through `data.forms && data.forms.length`,
so it is modelled by its length. -/
structure PageMetadata where
  platform : String
  contentType : String
  wordCount : Int
  hasInteractiveElements : Bool
deriving Repr, DecidableEq

/-- The extracted-content record passed to `handleContentAnalysis`. -/
structure ExtractedContent where
  title : String
  url : String
  mainContent : String
  forms : Nat
  metadata : PageMetadata
deriving Repr, DecidableEq

/-- `AIService.handleContentAnalysis` (src/popup.tsx:816-837).  The three
`Date.now()` reads are `tCache` (cache-freshness test, line 821), `tRate`
(inside `checkRateLimit`, line 840) and `tStore` (cache insertion, line 834).
`backend` is the outcome of the awaited `simulateAIAnalysis` call:
`Except.ok` its resolved value, `Except.error` the message it threw with.
Returns the call's outcome together with the post-call state. -/
def handleContentAnalysis (st : AIServiceState) (data : ExtractedContent)
    (tCache tRate tStore : Int) (backend : Except String ContentAnalysis) :
    Except AnalysisError ContentAnalysis × AIServiceState :=
  let contentHash := generateContentHash data.mainContent
  match cacheFresh st.cache contentHash tCache with
  | some d => (Except.ok d, st)
  | none =>
    let res := checkRateLimit tRate st.rateLimiter
    let st1 : AIServiceState := { st with rateLimiter := res.2 }
    if res.1 = false then
      (Except.error AnalysisError.rateLimited, st1)
    else
      match backend with
      | Except.error e => (Except.error (AnalysisError.backend e), st1)
      | Except.ok analysis =>
        (Except.ok analysis,
         { st1 with cache := mapSet st1.cache contentHash ⟨analysis, tStore⟩ })

/-- JS `String.toLowerCase` restricted to its ASCII case mappings (the
keywords and markers the analysis path searches for are all ASCII). -/
def toLowerAscii (s : String) : String :=
  String.mk (s.data.map (fun c =>
    if 65 ≤ c.toNat ∧ c.toNat ≤ 90 then Char.ofNat (c.toNat + 32) else c))

/-- JS `String.includes`: the pattern occurs as a contiguous substring. -/
def hasSub (pat : List Char) : List Char → Bool
  | [] => pat.isEmpty
  | c :: rest => pat.isPrefixOf (c :: rest) || hasSub pat rest

/-- Number of matches of `content.match(new RegExp(word, 'g'))` for a plain
(metacharacter-free) word: leftmost, non-overlapping occurrences. -/
def countOccs (pat : List Char) : List Char → Nat
  | [] => 0
  | c :: rest =>
    if pat ≠ [] ∧ pat.isPrefixOf (c :: rest) then
      1 + countOccs pat (List.drop (pat.length - 1) rest)
    else
      countOccs pat rest
termination_by l => l.length
decreasing_by
  all_goals simp [List.length_drop]
  omega

/-- The JS regex `\s` character class. -/
def isWsChar (c : Char) : Bool :=
  let n := c.toNat
  n = 32 || n = 9 || n = 10 || n = 11 || n = 12 || n = 13 || n = 160 ||
  n = 0x1680 || (0x2000 ≤ n && n ≤ 0x200a) || n = 0x2028 || n = 0x2029 ||
  n = 0x202f || n = 0x205f || n = 0x3000 || n = 0xfeff

/-- Worker for `splitWs`, carrying the current segment reversed. -/
def splitWsAux : List Char → List Char → List String
  | [], acc => [String.mk acc.reverse]
  | c :: rest, acc =>
    if isWsChar c then
      String.mk acc.reverse :: splitWsAux (rest.dropWhile isWsChar) []
    else
      splitWsAux rest (c :: acc)
termination_by l _ => l.length
decreasing_by
  all_goals simp
  exact Nat.lt_succ_of_le (List.dropWhile_suffix isWsChar).length_le

/-- JS `content.split(/\s+/)`: split on maximal whitespace runs; a leading
or trailing run contributes an empty segment, as the JS regex split does. -/
def splitWs (s : String) : List String := splitWsAux s.data []

/-- `sentimentKeywords.positive` (src/popup.tsx:884). -/
def positiveKeywords : List String :=
  ["good", "great", "excellent", "amazing", "successful", "growth",
   "improve", "better"]

/-- `sentimentKeywords.negative` (src/popup.tsx:885). -/
def negativeKeywords : List String :=
  ["bad", "terrible", "awful", "failed", "error", "problem", "issue",
   "decrease"]

/-- `(content.match(new RegExp(word, 'g')) || []).length`. -/
def countMatches (word : String) (content : String) : Nat :=
  countOccs word.data content.data

/-- JS `s.charAt(0).toUpperCase() + s.slice(1)`, ASCII case mapping. -/
def capitalizeAscii (s : String) : String :=
  match s.data with
  | [] => ""
  | c :: rest =>
    String.mk ((if 97 ≤ c.toNat ∧ c.toNat ≤ 122 then
      Char.ofNat (c.toNat - 32) else c) :: rest)

/-- `AIService.extractKeyInsights` (src/popup.tsx:917-941): conditional
pushes modelled as concatenation of conditional singletons. -/
def extractKeyInsights (data : ExtractedContent) : List String :=
  let content := toLowerAscii data.mainContent
  let formCount := data.forms
  let formSuffix := if formCount > 1 then "s" else ""
  let platform := data.metadata.platform
  let insights : List String :=
    (if hasSub "dashboard".data content.data then
      ["Page appears to be a dashboard interface"] else []) ++
    (if formCount > 0 then
      [s!"Contains {formCount} interactive form{formSuffix}"] else []) ++
    (if data.metadata.hasInteractiveElements then
      ["High level of user interaction elements detected"] else []) ++
    (if data.metadata.wordCount > 500 then
      ["Content-rich page with substantial information"] else []) ++
    (if platform ≠ "unknown" then
      [s!"Optimized for {platform} platform integration"] else [])
  if insights.length > 0 then insights else ["Standard web content detected"]

/-- `AIService.generateActionableItems` (src/popup.tsx:943-961). -/
def generateActionableItems (data : ExtractedContent) : List String :=
  (if data.forms > 0 then
    ["Review form completion rates and user experience"] else []) ++
  (if data.metadata.wordCount > 1000 then
    ["Consider content summarization for better readability"] else []) ++
  (if data.metadata.hasInteractiveElements then
    ["Monitor user interaction patterns and optimize workflow"] else []) ++
  ["Set up automated monitoring for content changes"]

/-- `AIService.categorizeContent` (src/popup.tsx:963-988). -/
def categorizeContent (data : ExtractedContent) : List String :=
  let content := toLowerAscii data.mainContent
  let url := toLowerAscii data.url
  let categories : List String :=
    (if hasSub "dashboard".data url.data || hasSub "dashboard".data content.data
      then ["Dashboard"] else []) ++
    (if data.forms > 0 then ["Forms"] else []) ++
    (if hasSub "analytics".data content.data || hasSub "metrics".data content.data
      then ["Analytics"] else []) ++
    (if hasSub "settings".data content.data ||
        hasSub "configuration".data content.data
      then ["Configuration"] else []) ++
    (if data.metadata.platform ≠ "unknown" then ["SAAS Application"] else [])
  if categories.length > 0 then categories else ["General Content"]

/-- `AIService.generateSummary` (src/popup.tsx:990-1000). -/
def generateSummary (data : ExtractedContent) (wordCount : Nat) : String :=
  let platform := data.metadata.platform
  let contentType := data.metadata.contentType
  if platform ≠ "unknown" then
    let capPlatform := capitalizeAscii platform
    let tail := if data.metadata.hasInteractiveElements then
      "High user interaction potential." else "Primarily informational content."
    s!"{capPlatform} {contentType} page with {wordCount} words. {tail}"
  else
    let formsPart := if data.forms > 0 then
      s!"Contains {data.forms} forms." else ""
    let tailPart := if data.metadata.hasInteractiveElements then
      "Interactive elements detected." else ""
    s!"Web {contentType} with {wordCount} words. {formsPart} {tailPart}"

/-- The local simulated analysis of `AIService.simulateAIAnalysis`
(src/popup.tsx:875-915; identical fallback branch at 1164-1204 of the
API-enabled copy), minus the simulated network delay. -/
def simulateAIAnalysis (data : ExtractedContent) : ContentAnalysis :=
  let content := toLowerAscii data.mainContent
  let wordCount := (splitWs content).length
  let positiveCount := (positiveKeywords.map (fun w => countMatches w content)).sum
  let negativeCount := (negativeKeywords.map (fun w => countMatches w content)).sum
  let sentiment :=
    if positiveCount > negativeCount then "positive"
    else if negativeCount > positiveCount then "negative"
    else "neutral"
  { summary := generateSummary data wordCount
    sentiment := sentiment
    keyInsights := extractKeyInsights data
    confidence :=
      min (9/10 : Rat) (max (3/10) ((positiveCount + negativeCount : Nat) / 10))
    actionableItems := generateActionableItems data
    categories := categorizeContent data }

/-- The fields `parseAIResponse` reads off the object produced by
`JSON.parse`: `none` in a field means the key is absent or has the wrong
runtime type for that field's check. -/
structure ParsedResponse where
  summary : Option String
  sentiment : Option String
  keyInsights : Option (List String)
  confidence : Option Rat
  actionableItems : Option (List String)
  categories : Option (List String)
deriving Repr, DecidableEq

/-- JS `x || d` for a possibly-absent string field: `undefined` and the
empty string are falsy and fall back to the default. -/
def jsOrString (v : Option String) (d : String) : String :=
  match v with
  | some s => if s = "" then d else s
  | none => d

/-- `AIService.parseAIResponse` (src/popup.tsx:1379-1406).  The regex match
`/\{[\s\S]*\}/` and `JSON.parse` are external text processing, modelled by
the `Option ParsedResponse` argument: `none` when no JSON object is found or
parsing throws (the catch path), `some p` the successfully parsed record.
Note that `sentiment` and `confidence` are passed through unvalidated. -/
def parseAIResponse (parsed : Option ParsedResponse) : ContentAnalysis :=
  match parsed with
  | some p =>
    { summary := jsOrString p.summary "Analysis completed"
      sentiment := jsOrString p.sentiment "neutral"
      keyInsights := p.keyInsights.getD ["Analysis performed"]
      confidence := p.confidence.getD (1/2)
      actionableItems := p.actionableItems.getD ["Review results"]
      categories := p.categories.getD ["General"] }
  | none =>
    { summary := "AI analysis completed but response format was unexpected"
      sentiment := "neutral"
      keyInsights := ["Content analysis performed"]
      confidence := 3/10
      actionableItems := ["Review AI service configuration"]
      categories := ["General Content"] }

/-- One message-driven `handleContentAnalysis` call in a sequence: the
extracted content, the three `Date.now()` readings and the value the
analysis backend resolves with. -/
structure CallSpec where
  data : ExtractedContent
  tCache : Int
  tRate : Int
  tStore : Int
  result : ContentAnalysis
deriving Repr, DecidableEq

/-- The content hash a call is keyed under. -/
def hashOf (c : CallSpec) : String := generateContentHash c.data.mainContent

/-- Run a sequence of `handleContentAnalysis` calls, threading the service
state and collecting each call's outcome. -/
def runAnalyses (st : AIServiceState) :
    List CallSpec → List (Except AnalysisError ContentAnalysis) × AIServiceState
  | [] => ([], st)
  | c :: rest =>
    let r := handleContentAnalysis st c.data c.tCache c.tRate c.tStore
      (Except.ok c.result)
    let rs := runAnalyses r.2 rest
    (r.1 :: rs.1, rs.2)

/-- Expected outcomes of a run of distinct-content in-window calls when `k`
calls were already admitted: the call at offset `i` succeeds exactly when
`k + i < RATE_LIMIT`. -/
def expectedResults : Nat → List CallSpec → List (Except AnalysisError ContentAnalysis)
  | _, [] => []
  | k, c :: rest =>
    (if k < RATE_LIMIT then Except.ok c.result
     else Except.error AnalysisError.rateLimited) :: expectedResults (k + 1) rest

/-- The rate-limiter invariant: no entry's count exceeds `RATE_LIMIT`. -/
def RLInv (rl : List (String × RateLimitEntry)) : Prop :=
  ∀ p ∈ rl, p.2.count ≤ RATE_LIMIT

/-- Well-formed analysis payload: confidence in `[0,1]` and a legal
sentiment tag. -/
def GoodAnalysis (a : ContentAnalysis) : Prop :=
  0 ≤ a.confidence ∧ a.confidence ≤ 1 ∧
  (a.sentiment = "positive" ∨ a.sentiment = "negative" ∨ a.sentiment = "neutral")

/-- Every payload stored in the cache is well-formed. -/
def CacheGood (cache : List (String × CacheEntry)) : Prop :=
  ∀ p ∈ cache, GoodAnalysis p.2.data

/-- A concrete analysis payload used to exercise the theorems on explicit
inputs. -/
def sampleAnalysis : ContentAnalysis :=
  ⟨"summary", "neutral", ["insight"], 1, ["action"], ["category"]⟩

/-- A second concrete analysis payload, distinct from `sampleAnalysis`. -/
def sampleAnalysis2 : ContentAnalysis :=
  ⟨"other summary", "positive", ["other insight"], 0, ["other action"],
   ["other category"]⟩

/-- A concrete extracted-content record with the given main text. -/
def sampleData (text : String) : ExtractedContent :=
  ⟨"title", "https://example.com", text, 0, ⟨"unknown", "article", 1, false⟩⟩

/-- A concrete call: analyze the given text at time 0, with
`sampleAnalysis` as the backend result. -/
def callFixture (text : String) : CallSpec :=
  ⟨sampleData text, 0, 0, 0, sampleAnalysis⟩

/-- The first of eleven concrete distinct-content calls. -/
def elevenFirst : CallSpec := callFixture "a"

/-- The remaining ten of eleven concrete distinct-content calls. -/
def elevenRest : List CallSpec :=
  [callFixture "b", callFixture "c", callFixture "d", callFixture "e",
   callFixture "f", callFixture "g", callFixture "h", callFixture "i",
   callFixture "j", callFixture "k"]

/-! ## Basic lemmas about the map model -/

theorem mapGet_mapSet_self {α : Type} (m : List (String × α)) (k : String)
    (v : α) : mapGet (mapSet m k v) k = some v := by
  induction m with
  | nil => simp [mapSet, mapGet]
  | cons p rest ih =>
    by_cases h : p.1 == k
    · simp [mapSet, mapGet, h]
    · simp [mapSet, mapGet, h, ih]

theorem mapGet_mapSet_ne {α : Type} (m : List (String × α)) (k k' : String)
    (v : α) (h : k' ≠ k) : mapGet (mapSet m k v) k' = mapGet m k' := by
  have hk : (k == k') = false := beq_eq_false_iff_ne.mpr (Ne.symm h)
  induction m with
  | nil => simp [mapSet, mapGet, hk]
  | cons p rest ih =>
    by_cases hp : p.1 == k
    · have hp1 : p.1 = k := beq_iff_eq.mp hp
      simp [mapSet, mapGet, hp, hk, hp1]
    · simp [mapSet, mapGet, hp, ih]

theorem mapGet_mem {α : Type} (m : List (String × α)) (k : String) (v : α)
    (h : mapGet m k = some v) : ∃ k', (k', v) ∈ m := by
  induction m with
  | nil => simp [mapGet] at h
  | cons p rest ih =>
    by_cases hp : p.1 == k
    · simp [mapGet, hp] at h
      subst h
      exact ⟨p.1, List.mem_cons_self p rest⟩
    · simp [mapGet, hp] at h
      obtain ⟨k', hk'⟩ := ih h
      exact ⟨k', by simp [hk']⟩

theorem mapGet_none_filter {α : Type} (m : List (String × α)) (k : String)
    (q : String × α → Bool) (h : mapGet m k = none) :
    mapGet (m.filter q) k = none := by
  induction m with
  | nil => simp [mapGet]
  | cons p rest ih =>
    by_cases hp : p.1 == k
    · simp [mapGet, hp] at h
    · simp [mapGet, hp] at h
      by_cases hq : q p
      · simp [List.filter_cons, hq, mapGet, hp, ih h]
      · simp [List.filter_cons, hq, ih h]

theorem mapGet_eq_none_of_not_mem_keys {α : Type} (m : List (String × α))
    (k : String) (h : k ∉ m.map Prod.fst) : mapGet m k = none := by
  induction m with
  | nil => rfl
  | cons p rest ih =>
    simp only [List.map_cons, List.mem_cons, not_or] at h
    have hp : (p.1 == k) = false := beq_eq_false_iff_ne.mpr (Ne.symm h.1)
    simp [mapGet, hp, ih h.2]

theorem mapGet_filterVal_none {α : Type} (m : List (String × α)) (k : String)
    (v : α) (pred : α → Bool) (hnd : (m.map Prod.fst).Nodup)
    (hget : mapGet m k = some v) (hv : pred v = false) :
    mapGet (m.filter (fun p => pred p.2)) k = none := by
  induction m with
  | nil => simp [mapGet] at hget
  | cons p rest ih =>
    simp only [List.map_cons, List.nodup_cons] at hnd
    by_cases hp : p.1 == k
    · have hp1 : p.1 = k := beq_iff_eq.mp hp
      simp [mapGet, hp] at hget
      have hrest : mapGet rest k = none := by
        refine mapGet_eq_none_of_not_mem_keys rest k ?_
        rw [← hp1]
        exact hnd.1
      have : (fun q : String × α => pred q.2) p = false := by
        simp [hget, hv]
      simp [List.filter_cons, this, mapGet_none_filter rest k _ hrest]
    · simp [mapGet, hp] at hget
      by_cases hq : pred p.2
      · simp [List.filter_cons, hq, mapGet, hp, ih hnd.2 hget]
      · simp [List.filter_cons, hq, ih hnd.2 hget]

theorem mapGet_filterVal_some {α : Type} (m : List (String × α)) (k : String)
    (v : α) (pred : α → Bool) (hget : mapGet m k = some v)
    (hv : pred v = true) :
    mapGet (m.filter (fun p => pred p.2)) k = some v := by
  induction m with
  | nil => simp [mapGet] at hget
  | cons p rest ih =>
    by_cases hp : p.1 == k
    · simp [mapGet, hp] at hget
      have : (fun q : String × α => pred q.2) p = true := by simp [hget, hv]
      simp [List.filter_cons, this, mapGet, hp, hget, hv]
    · simp [mapGet, hp] at hget
      by_cases hq : pred p.2
      · simp [List.filter_cons, hq, mapGet, hp, ih hget]
      · simp [List.filter_cons, hq, ih hget]

/-! ## Unfolding lemmas for the coordinator's branches -/

theorem handleContentAnalysis_hit (st : AIServiceState)
    (data : ExtractedContent) (tc tr ts : Int)
    (backend : Except String ContentAnalysis) (d : ContentAnalysis)
    (h : cacheFresh st.cache (generateContentHash data.mainContent) tc = some d) :
    handleContentAnalysis st data tc tr ts backend = (Except.ok d, st) := by
  simp [handleContentAnalysis, h]

theorem handleContentAnalysis_miss_reject (st : AIServiceState)
    (data : ExtractedContent) (tc tr ts : Int)
    (backend : Except String ContentAnalysis)
    (h : cacheFresh st.cache (generateContentHash data.mainContent) tc = none)
    (hr : (checkRateLimit tr st.rateLimiter).1 = false) :
    handleContentAnalysis st data tc tr ts backend =
      (Except.error AnalysisError.rateLimited,
       ⟨(checkRateLimit tr st.rateLimiter).2, st.cache⟩) := by
  simp [handleContentAnalysis, h, hr]

theorem handleContentAnalysis_miss_admit_ok (st : AIServiceState)
    (data : ExtractedContent) (tc tr ts : Int) (a : ContentAnalysis)
    (h : cacheFresh st.cache (generateContentHash data.mainContent) tc = none)
    (hr : (checkRateLimit tr st.rateLimiter).1 = true) :
    handleContentAnalysis st data tc tr ts (Except.ok a) =
      (Except.ok a,
       ⟨(checkRateLimit tr st.rateLimiter).2,
        mapSet st.cache (generateContentHash data.mainContent) ⟨a, ts⟩⟩) := by
  simp [handleContentAnalysis, h, hr]

theorem handleContentAnalysis_miss_admit_error (st : AIServiceState)
    (data : ExtractedContent) (tc tr ts : Int) (msg : String)
    (h : cacheFresh st.cache (generateContentHash data.mainContent) tc = none)
    (hr : (checkRateLimit tr st.rateLimiter).1 = true) :
    handleContentAnalysis st data tc tr ts (Except.error msg) =
      (Except.error (AnalysisError.backend msg),
       ⟨(checkRateLimit tr st.rateLimiter).2, st.cache⟩) := by
  simp [handleContentAnalysis, h, hr]

/-! ## Lemmas about the sweep and the admission decision -/

theorem sweepStale_get_none (now : Int) (rl : List (String × RateLimitEntry))
    (e : RateLimitEntry) (hnd : (rl.map Prod.fst).Nodup)
    (hget : mapGet rl userKey = some e)
    (hstale : e.timestamp < now - 60000) :
    mapGet (sweepStale now rl) userKey = none := by
  unfold sweepStale
  exact mapGet_filterVal_none rl userKey e
    (fun v => decide (¬ (v.timestamp < now - 60000))) hnd hget
    (by simp [hstale])

theorem sweepStale_get_some (now : Int) (rl : List (String × RateLimitEntry))
    (e : RateLimitEntry) (hget : mapGet rl userKey = some e)
    (hfresh : ¬ (e.timestamp < now - 60000)) :
    mapGet (sweepStale now rl) userKey = some e := by
  unfold sweepStale
  exact mapGet_filterVal_some rl userKey e
    (fun v => decide (¬ (v.timestamp < now - 60000))) hget
    (by simp [hfresh])

theorem checkRateLimit_new_window (now : Int)
    (rl : List (String × RateLimitEntry))
    (h : mapGet (sweepStale now rl) userKey = none) :
    checkRateLimit now rl =
      (true, mapSet (sweepStale now rl) userKey ⟨now, 1⟩) := by
  simp [checkRateLimit, h]

theorem checkRateLimit_reject (now : Int)
    (rl : List (String × RateLimitEntry)) (e : RateLimitEntry)
    (h : mapGet (sweepStale now rl) userKey = some e)
    (hsat : e.count ≥ RATE_LIMIT) :
    checkRateLimit now rl = (false, sweepStale now rl) := by
  simp [checkRateLimit, h, hsat]

theorem checkRateLimit_increment (now : Int)
    (rl : List (String × RateLimitEntry)) (e : RateLimitEntry)
    (h : mapGet (sweepStale now rl) userKey = some e)
    (hroom : e.count < RATE_LIMIT) :
    checkRateLimit now rl =
      (true, mapSet (sweepStale now rl) userKey ⟨e.timestamp, e.count + 1⟩) := by
  simp [checkRateLimit, h, Nat.not_le.mpr hroom]

/-! ## The hash refinement -/

theorem jsHashStep_eq (h : Int) (c : Nat) :
    jsHashStep h c = toInt32 (h * 31 + c) := by
  unfold jsHashStep toInt32
  omega

theorem jsHashAux_eq_specHashAux (l : List Nat) :
    ∀ h : Int, jsHashAux l h = specHashAux l h := by
  induction l with
  | nil => intro h; rfl
  | cons c rest ih =>
    intro h
    simp [jsHashAux, specHashAux, jsHashStep_eq, ih]

/-! ## Claim theorems -/

/-- C7: `generateContentHash` equals the reference hash that folds the text
character by character via `hash = hash * 31 + charCode` truncated to a
32-bit signed integer, rendered in decimal.  Determinism within a session is
immediate: the model is a function of the code-unit sequence alone, so equal
strings always produce equal hash strings. -/
theorem generateContentHash_eq_specHash (s : String) :
    generateContentHash s = specHash (s.data.map Char.toNat) := by
  unfold generateContentHash generateContentHashCodes specHash
  rw [jsHashAux_eq_specHashAux]

/-- C1: on a cache hit (an entry for the content hash with
`now - timestamp < CACHE_DURATION`), `handleContentAnalysis` returns the
stored `ContentAnalysis` unchanged and the whole service state — in
particular the rate limiter map — is returned untouched: no entry is added,
no count incremented, no stale-entry sweep runs.  The rate limiter is not
even read: the conclusion holds for every value of `st.rateLimiter`, `tr`
and `backend`. -/
theorem cacheHit_returns_stored_and_skips_limiter
    (st : AIServiceState) (data : ExtractedContent) (tc tr ts : Int)
    (backend : Except String ContentAnalysis) (e : CacheEntry)
    (hent : mapGet st.cache (generateContentHash data.mainContent) = some e)
    (hfresh : tc - e.timestamp < CACHE_DURATION) :
    handleContentAnalysis st data tc tr ts backend = (Except.ok e.data, st) := by
  apply handleContentAnalysis_hit
  simp [cacheFresh, hent, hfresh]

/-- Witness for C1 at a concrete cached entry and a limiter holding a
counter, which the call leaves untouched. -/
theorem cacheHit_returns_stored_and_skips_limiter_witness :
    mapGet (AIServiceState.mk [(userKey, ⟨0, 4⟩)]
        [(generateContentHash "hello", ⟨sampleAnalysis, 0⟩)]).cache
      (generateContentHash (sampleData "hello").mainContent) =
        some ⟨sampleAnalysis, 0⟩ ∧
    (7 : Int) - (0 : Int) < CACHE_DURATION ∧
    handleContentAnalysis
      ⟨[(userKey, ⟨0, 4⟩)], [(generateContentHash "hello", ⟨sampleAnalysis, 0⟩)]⟩
      (sampleData "hello") 7 8 9 (Except.ok sampleAnalysis2) =
      (Except.ok sampleAnalysis,
       ⟨[(userKey, ⟨0, 4⟩)], [(generateContentHash "hello", ⟨sampleAnalysis, 0⟩)]⟩) :=
  ⟨by decide, by decide,
   cacheHit_returns_stored_and_skips_limiter
     ⟨[(userKey, ⟨0, 4⟩)], [(generateContentHash "hello", ⟨sampleAnalysis, 0⟩)]⟩
     (sampleData "hello") 7 8 9 (Except.ok sampleAnalysis2)
     ⟨sampleAnalysis, 0⟩ (by decide) (by decide)⟩

/-- C5: when the cache entry for the content hash is absent or expired
(`now - timestamp ≥ CACHE_DURATION`), the call is a cache miss: the rate
limiter is consulted (the post-state's limiter is `checkRateLimit`'s
output), and on admission with backend success the result is stored under
the content hash with the store-time timestamp — overwriting any prior
entry for that hash — and that same result is returned. -/
theorem cacheMiss_admitted_stores_and_returns
    (st : AIServiceState) (data : ExtractedContent) (tc tr ts : Int)
    (a : ContentAnalysis)
    (hmiss : mapGet st.cache (generateContentHash data.mainContent) = none ∨
      ∃ e : CacheEntry,
        mapGet st.cache (generateContentHash data.mainContent) = some e ∧
        tc - e.timestamp ≥ CACHE_DURATION)
    (hpass : (checkRateLimit tr st.rateLimiter).1 = true) :
    handleContentAnalysis st data tc tr ts (Except.ok a) =
      (Except.ok a,
       ⟨(checkRateLimit tr st.rateLimiter).2,
        mapSet st.cache (generateContentHash data.mainContent) ⟨a, ts⟩⟩) ∧
    mapGet (mapSet st.cache (generateContentHash data.mainContent) ⟨a, ts⟩)
      (generateContentHash data.mainContent) = some ⟨a, ts⟩ := by
  have hcf : cacheFresh st.cache (generateContentHash data.mainContent) tc = none := by
    rcases hmiss with hnone | ⟨e, hget, hexp⟩
    · simp [cacheFresh, hnone]
    · simp [cacheFresh, hget, not_lt.mpr hexp]
  exact ⟨handleContentAnalysis_miss_admit_ok st data tc tr ts a hcf hpass,
    mapGet_mapSet_self st.cache (generateContentHash data.mainContent) ⟨a, ts⟩⟩

/-- Witness for C5: an expired entry for the same hash is overwritten. -/
theorem cacheMiss_admitted_stores_and_returns_witness :
    (mapGet (AIServiceState.mk []
        [(generateContentHash "hello", ⟨sampleAnalysis, 0⟩)]).cache
      (generateContentHash (sampleData "hello").mainContent) = none ∨
      ∃ e : CacheEntry,
        mapGet (AIServiceState.mk []
            [(generateContentHash "hello", ⟨sampleAnalysis, 0⟩)]).cache
          (generateContentHash (sampleData "hello").mainContent) = some e ∧
        (300000 : Int) - e.timestamp ≥ CACHE_DURATION) ∧
    (checkRateLimit 300001
      (AIServiceState.mk [] [(generateContentHash "hello", ⟨sampleAnalysis, 0⟩)]).rateLimiter).1 = true ∧
    handleContentAnalysis
      ⟨[], [(generateContentHash "hello", ⟨sampleAnalysis, 0⟩)]⟩
      (sampleData "hello") 300000 300001 300002 (Except.ok sampleAnalysis2) =
      (Except.ok sampleAnalysis2,
       ⟨[(userKey, ⟨300001, 1⟩)],
        [(generateContentHash "hello", ⟨sampleAnalysis2, 300002⟩)]⟩) := by
  refine ⟨Or.inr ⟨⟨sampleAnalysis, 0⟩, by decide, by decide⟩, by decide, ?_⟩
  have h := cacheMiss_admitted_stores_and_returns
    ⟨[], [(generateContentHash "hello", ⟨sampleAnalysis, 0⟩)]⟩
    (sampleData "hello") 300000 300001 300002 sampleAnalysis2
    (Or.inr ⟨⟨sampleAnalysis, 0⟩, by decide, by decide⟩) (by decide)
  rw [h.1]
  decide

/-- C4: on a cache miss where the limiter's `default_user` entry is more
than 60000 ms old — whatever its count, including a saturated count of 10 —
the stale entry is discarded by the sweep, a fresh window entry
`{timestamp: now, count: 1}` is installed, and the request is admitted; in
particular, once more than `RATE_LIMIT_WINDOW_MS` has elapsed past the
first call of a saturated window, the next call is admitted. -/
theorem staleWindow_resets_and_admits
    (st : AIServiceState) (data : ExtractedContent) (tc tr ts : Int)
    (a : ContentAnalysis) (e : RateLimitEntry)
    (hnd : (st.rateLimiter.map Prod.fst).Nodup)
    (hmiss : cacheFresh st.cache (generateContentHash data.mainContent) tc = none)
    (hent : mapGet st.rateLimiter userKey = some e)
    (hstale : e.timestamp < tr - 60000) :
    (checkRateLimit tr st.rateLimiter).1 = true ∧
    mapGet (checkRateLimit tr st.rateLimiter).2 userKey = some ⟨tr, 1⟩ ∧
    handleContentAnalysis st data tc tr ts (Except.ok a) =
      (Except.ok a,
       ⟨(checkRateLimit tr st.rateLimiter).2,
        mapSet st.cache (generateContentHash data.mainContent) ⟨a, ts⟩⟩) := by
  have hnone := sweepStale_get_none tr st.rateLimiter e hnd hent hstale
  have hcrl := checkRateLimit_new_window tr st.rateLimiter hnone
  refine ⟨by rw [hcrl], ?_, ?_⟩
  · rw [hcrl]
    exact mapGet_mapSet_self (sweepStale tr st.rateLimiter) userKey ⟨tr, 1⟩
  · exact handleContentAnalysis_miss_admit_ok st data tc tr ts a hmiss (by rw [hcrl])

/-- Witness for C4 at a saturated window (`count = 10`) whose first call is
60001 ms in the past. -/
theorem staleWindow_resets_and_admits_witness :
    ((AIServiceState.mk [(userKey, ⟨0, 10⟩)] []).rateLimiter.map Prod.fst).Nodup ∧
    cacheFresh (AIServiceState.mk [(userKey, ⟨0, 10⟩)] []).cache
      (generateContentHash (sampleData "hello").mainContent) 60001 = none ∧
    mapGet (AIServiceState.mk [(userKey, ⟨0, 10⟩)] []).rateLimiter userKey =
      some ⟨0, 10⟩ ∧
    (0 : Int) < (60001 : Int) - 60000 ∧
    (checkRateLimit 60001 (AIServiceState.mk [(userKey, ⟨0, 10⟩)] []).rateLimiter).1 = true ∧
    mapGet (checkRateLimit 60001
      (AIServiceState.mk [(userKey, ⟨0, 10⟩)] []).rateLimiter).2 userKey =
        some ⟨60001, 1⟩ ∧
    handleContentAnalysis ⟨[(userKey, ⟨0, 10⟩)], []⟩ (sampleData "hello")
      60001 60001 60002 (Except.ok sampleAnalysis) =
      (Except.ok sampleAnalysis,
       ⟨(checkRateLimit 60001
          (AIServiceState.mk [(userKey, ⟨0, 10⟩)] []).rateLimiter).2,
        mapSet (AIServiceState.mk [(userKey, ⟨0, 10⟩)] []).cache
          (generateContentHash (sampleData "hello").mainContent)
          ⟨sampleAnalysis, 60002⟩⟩) := by
  have h := staleWindow_resets_and_admits ⟨[(userKey, ⟨0, 10⟩)], []⟩
    (sampleData "hello") 60001 60001 60002 sampleAnalysis ⟨0, 10⟩
    (by decide) (by decide) (by decide) (by decide)
  exact ⟨by decide, by decide, by decide, by decide, h.1, h.2.1, h.2.2⟩

/-- C6: when an active (non-stale) window entry has `count ≥ RATE_LIMIT`,
`handleContentAnalysis` rejects: the rate-limit error is thrown, the
analysis is not performed (the conclusion does not depend on `backend`),
the cache map is unchanged, and the active entry's count and timestamp are
unchanged in the post-state. -/
theorem rateLimited_rejection_frame
    (st : AIServiceState) (data : ExtractedContent) (tc tr ts : Int)
    (backend : Except String ContentAnalysis) (e : RateLimitEntry)
    (hmiss : cacheFresh st.cache (generateContentHash data.mainContent) tc = none)
    (hent : mapGet st.rateLimiter userKey = some e)
    (hfresh : ¬ (e.timestamp < tr - 60000))
    (hsat : e.count ≥ RATE_LIMIT) :
    handleContentAnalysis st data tc tr ts backend =
      (Except.error AnalysisError.rateLimited,
       ⟨sweepStale tr st.rateLimiter, st.cache⟩) ∧
    mapGet (handleContentAnalysis st data tc tr ts backend).2.rateLimiter
      userKey = some e := by
  have hsome := sweepStale_get_some tr st.rateLimiter e hent hfresh
  have hcrl := checkRateLimit_reject tr st.rateLimiter e hsome hsat
  have hmain : handleContentAnalysis st data tc tr ts backend =
      (Except.error AnalysisError.rateLimited,
       ⟨sweepStale tr st.rateLimiter, st.cache⟩) := by
    have h := handleContentAnalysis_miss_reject st data tc tr ts backend hmiss
      (by rw [hcrl])
    rw [h, hcrl]
  exact ⟨hmain, by rw [hmain]; exact hsome⟩

/-- Witness for C6: a saturated fresh window rejects and is left intact. -/
theorem rateLimited_rejection_frame_witness :
    cacheFresh (AIServiceState.mk [(userKey, ⟨0, 10⟩)] []).cache
      (generateContentHash (sampleData "hello").mainContent) 5 = none ∧
    mapGet (AIServiceState.mk [(userKey, ⟨0, 10⟩)] []).rateLimiter userKey =
      some ⟨0, 10⟩ ∧
    ¬ ((0 : Int) < (5 : Int) - 60000) ∧
    (10 : Nat) ≥ RATE_LIMIT ∧
    handleContentAnalysis ⟨[(userKey, ⟨0, 10⟩)], []⟩ (sampleData "hello")
      5 5 6 (Except.ok sampleAnalysis) =
      (Except.error AnalysisError.rateLimited,
       ⟨sweepStale 5 (AIServiceState.mk [(userKey, ⟨0, 10⟩)] []).rateLimiter, []⟩) ∧
    mapGet (handleContentAnalysis ⟨[(userKey, ⟨0, 10⟩)], []⟩
      (sampleData "hello") 5 5 6 (Except.ok sampleAnalysis)).2.rateLimiter
      userKey = some ⟨0, 10⟩ := by
  have h := rateLimited_rejection_frame ⟨[(userKey, ⟨0, 10⟩)], []⟩
    (sampleData "hello") 5 5 6 (Except.ok sampleAnalysis) ⟨0, 10⟩
    (by decide) (by decide) (by decide) (by decide)
  exact ⟨by decide, by decide, by decide, by decide, h.1, h.2⟩

/-- C8 (implicit): if the delegated analysis call throws after the
rate-limit check admitted the request, the error is propagated as a backend
error, no cache entry is written for the content hash (the cache map is
returned unchanged), and the incremented rate-limit count stays in the
post-state — the admission is not refunded. -/
theorem backendError_keeps_admission
    (st : AIServiceState) (data : ExtractedContent) (tc tr ts : Int)
    (msg : String) (e : RateLimitEntry)
    (hmiss : cacheFresh st.cache (generateContentHash data.mainContent) tc = none)
    (hent : mapGet st.rateLimiter userKey = some e)
    (hfresh : ¬ (e.timestamp < tr - 60000))
    (hroom : e.count < RATE_LIMIT) :
    handleContentAnalysis st data tc tr ts (Except.error msg) =
      (Except.error (AnalysisError.backend msg),
       ⟨mapSet (sweepStale tr st.rateLimiter) userKey ⟨e.timestamp, e.count + 1⟩,
        st.cache⟩) ∧
    mapGet (handleContentAnalysis st data tc tr ts
      (Except.error msg)).2.rateLimiter userKey = some ⟨e.timestamp, e.count + 1⟩ := by
  have hsome := sweepStale_get_some tr st.rateLimiter e hent hfresh
  have hcrl := checkRateLimit_increment tr st.rateLimiter e hsome hroom
  have hmain : handleContentAnalysis st data tc tr ts (Except.error msg) =
      (Except.error (AnalysisError.backend msg),
       ⟨mapSet (sweepStale tr st.rateLimiter) userKey ⟨e.timestamp, e.count + 1⟩,
        st.cache⟩) := by
    have h := handleContentAnalysis_miss_admit_error st data tc tr ts msg hmiss
      (by rw [hcrl])
    rw [h, hcrl]
  refine ⟨hmain, ?_⟩
  rw [hmain]
  exact mapGet_mapSet_self (sweepStale tr st.rateLimiter) userKey
    ⟨e.timestamp, e.count + 1⟩

/-- Witness for C8: a failed backend call still consumes one admission. -/
theorem backendError_keeps_admission_witness :
    cacheFresh (AIServiceState.mk [(userKey, ⟨0, 3⟩)] []).cache
      (generateContentHash (sampleData "hello").mainContent) 5 = none ∧
    mapGet (AIServiceState.mk [(userKey, ⟨0, 3⟩)] []).rateLimiter userKey =
      some ⟨0, 3⟩ ∧
    ¬ ((0 : Int) < (5 : Int) - 60000) ∧
    (3 : Nat) < RATE_LIMIT ∧
    handleContentAnalysis ⟨[(userKey, ⟨0, 3⟩)], []⟩ (sampleData "hello")
      5 5 6 (Except.error "network down") =
      (Except.error (AnalysisError.backend "network down"),
       ⟨mapSet (sweepStale 5 (AIServiceState.mk [(userKey, ⟨0, 3⟩)] []).rateLimiter)
          userKey ⟨0, 4⟩, []⟩) ∧
    mapGet (handleContentAnalysis ⟨[(userKey, ⟨0, 3⟩)], []⟩
      (sampleData "hello") 5 5 6 (Except.error "network down")).2.rateLimiter
      userKey = some ⟨0, 4⟩ := by
  have h := backendError_keeps_admission ⟨[(userKey, ⟨0, 3⟩)], []⟩
    (sampleData "hello") 5 5 6 "network down" ⟨0, 3⟩
    (by decide) (by decide) (by decide) (by decide)
  exact ⟨by decide, by decide, by decide, by decide, h.1, h.2⟩

/-! ## The count invariant -/

theorem RLInv_filter (rl : List (String × RateLimitEntry))
    (q : String × RateLimitEntry → Bool) (h : RLInv rl) :
    RLInv (rl.filter q) :=
  fun p hp => h p (List.mem_of_mem_filter hp)

theorem RLInv_mapSet (m : List (String × RateLimitEntry)) (k : String)
    (v : RateLimitEntry) (h : RLInv m) (hv : v.count ≤ RATE_LIMIT) :
    RLInv (mapSet m k v) := by
  induction m with
  | nil =>
    intro p hp
    simp [mapSet] at hp
    simp [hp, hv]
  | cons q rest ih =>
    have hrest : RLInv rest := fun r hr => h r (List.mem_cons_of_mem q hr)
    intro p hp
    by_cases hq : q.1 == k
    · simp [mapSet, hq] at hp
      rcases hp with hp | hp
      · simp [hp, hv]
      · exact h p (List.mem_cons_of_mem q hp)
    · simp [mapSet, hq] at hp
      rcases hp with hp | hp
      · exact h p (by simp [hp])
      · exact ih hrest p hp

theorem checkRateLimit_inv (now : Int)
    (rl : List (String × RateLimitEntry)) (h : RLInv rl) :
    RLInv (checkRateLimit now rl).2 := by
  have hcl : RLInv (sweepStale now rl) := RLInv_filter rl _ h
  unfold checkRateLimit
  rcases hg : mapGet (sweepStale now rl) userKey with _ | e
  · simp [hg]
    exact RLInv_mapSet _ _ _ hcl (by norm_num [RATE_LIMIT])
  · by_cases hc : e.count ≥ RATE_LIMIT
    · simp [hg, hc]
      exact hcl
    · simp [hg, hc]
      exact RLInv_mapSet _ _ _ hcl (Nat.succ_le_of_lt (Nat.lt_of_not_le hc))

/-- C3: from any limiter state whose entries all satisfy
`count ≤ RATE_LIMIT`, both `checkRateLimit` and a completed
`handleContentAnalysis` call (whether it returns a result or throws)
preserve the invariant: every entry remaining in the rate limiter map
satisfies `count ≤ RATE_LIMIT`.  Together with the empty initial state this
covers every reachable limiter state. -/
theorem limiter_counts_bounded
    (rl : List (String × RateLimitEntry)) (st : AIServiceState)
    (data : ExtractedContent) (tc tr ts : Int)
    (backend : Except String ContentAnalysis)
    (h1 : RLInv rl) (h2 : RLInv st.rateLimiter) :
    RLInv (checkRateLimit tr rl).2 ∧
    RLInv (handleContentAnalysis st data tc tr ts backend).2.rateLimiter := by
  refine ⟨checkRateLimit_inv tr rl h1, ?_⟩
  unfold handleContentAnalysis
  rcases hcf : cacheFresh st.cache (generateContentHash data.mainContent) tc with _ | d
  · by_cases hr : (checkRateLimit tr st.rateLimiter).1 = false
    · simp [hcf, hr]
      exact checkRateLimit_inv tr _ h2
    · cases backend with
      | error msg =>
        simp [hcf, hr]
        exact checkRateLimit_inv tr _ h2
      | ok a =>
        simp [hcf, hr]
        exact checkRateLimit_inv tr _ h2
  · simp [hcf]
    exact h2

/-- Witness for C3 at a saturated concrete state. -/
theorem limiter_counts_bounded_witness :
    RLInv [(userKey, ⟨0, 10⟩)] ∧
    RLInv (AIServiceState.mk [(userKey, ⟨0, 10⟩)] []).rateLimiter ∧
    (RLInv (checkRateLimit 5 [(userKey, ⟨0, 10⟩)]).2 ∧
     RLInv (handleContentAnalysis ⟨[(userKey, ⟨0, 10⟩)], []⟩
       (sampleData "hello") 5 5 6 (Except.ok sampleAnalysis)).2.rateLimiter) :=
  ⟨by unfold RLInv; decide, by unfold RLInv; decide,
   limiter_counts_bounded [(userKey, ⟨0, 10⟩)] ⟨[(userKey, ⟨0, 10⟩)], []⟩
     (sampleData "hello") 5 5 6 (Except.ok sampleAnalysis)
     (by unfold RLInv; decide) (by unfold RLInv; decide)⟩

/-- C10: when two texts collide under `generateContentHash`, a call
analyzing the second text within `CACHE_DURATION` of a successful (miss,
admitted, backend-ok) call analyzing the first returns the first call's
stored result as a cache hit, and the service state — in particular the
rate limiter — is completely unchanged: a collision causes only a wrong
cache hit, never rate-limit consumption. -/
theorem hashCollision_secondCall_cacheHit
    (st : AIServiceState) (a b : ExtractedContent)
    (tc1 tr1 ts1 tc2 tr2 ts2 : Int) (ra : ContentAnalysis)
    (backend : Except String ContentAnalysis)
    (hhash : generateContentHash a.mainContent = generateContentHash b.mainContent)
    (hmiss : cacheFresh st.cache (generateContentHash a.mainContent) tc1 = none)
    (hpass : (checkRateLimit tr1 st.rateLimiter).1 = true)
    (htime : tc2 - ts1 < CACHE_DURATION) :
    (handleContentAnalysis st a tc1 tr1 ts1 (Except.ok ra)).1 = Except.ok ra ∧
    handleContentAnalysis (handleContentAnalysis st a tc1 tr1 ts1 (Except.ok ra)).2
      b tc2 tr2 ts2 backend =
      (Except.ok ra, (handleContentAnalysis st a tc1 tr1 ts1 (Except.ok ra)).2) := by
  have h1 := handleContentAnalysis_miss_admit_ok st a tc1 tr1 ts1 ra hmiss hpass
  constructor
  · rw [h1]
  · rw [h1]
    apply handleContentAnalysis_hit
    have hget : mapGet (mapSet st.cache (generateContentHash a.mainContent)
        ⟨ra, ts1⟩) (generateContentHash b.mainContent) = some ⟨ra, ts1⟩ := by
      rw [← hhash]
      exact mapGet_mapSet_self st.cache (generateContentHash a.mainContent) ⟨ra, ts1⟩
    simp [cacheFresh, hget, htime]

/-- Witness for C10 at the genuine collision `"Aa"` / `"BB"` (both hash to
`"2112"` under the JS hash). -/
theorem hashCollision_secondCall_cacheHit_witness :
    generateContentHash (sampleData "Aa").mainContent =
      generateContentHash (sampleData "BB").mainContent ∧
    (sampleData "Aa").mainContent ≠ (sampleData "BB").mainContent ∧
    cacheFresh emptyState.cache
      (generateContentHash (sampleData "Aa").mainContent) 0 = none ∧
    (checkRateLimit 0 emptyState.rateLimiter).1 = true ∧
    (2 : Int) - (1 : Int) < CACHE_DURATION ∧
    ((handleContentAnalysis emptyState (sampleData "Aa") 0 0 1
        (Except.ok sampleAnalysis)).1 = Except.ok sampleAnalysis ∧
     handleContentAnalysis
       (handleContentAnalysis emptyState (sampleData "Aa") 0 0 1
         (Except.ok sampleAnalysis)).2
       (sampleData "BB") 2 3 4 (Except.ok sampleAnalysis2) =
       (Except.ok sampleAnalysis,
        (handleContentAnalysis emptyState (sampleData "Aa") 0 0 1
          (Except.ok sampleAnalysis)).2)) :=
  ⟨by decide, by decide, by decide, by decide, by decide,
   hashCollision_secondCall_cacheHit emptyState (sampleData "Aa")
     (sampleData "BB") 0 0 1 2 3 4 sampleAnalysis (Except.ok sampleAnalysis2)
     (by decide) (by decide) (by decide) (by decide)⟩

/-! ## Output well-formedness -/

theorem simulateAIAnalysis_good (d : ExtractedContent) :
    GoodAnalysis (simulateAIAnalysis d) := by
  unfold GoodAnalysis simulateAIAnalysis
  simp only [gt_iff_lt]
  refine ⟨?_, ?_, ?_⟩
  · exact le_min (by norm_num)
      (le_trans (by norm_num) (le_max_left _ _))
  · exact le_trans (min_le_left _ _) (by norm_num)
  · split
    · exact Or.inl rfl
    · split
      · exact Or.inr (Or.inl rfl)
      · exact Or.inr (Or.inr rfl)

theorem cacheFresh_some_mem (cache : List (String × CacheEntry)) (h : String)
    (now : Int) (d : ContentAnalysis) (hcf : cacheFresh cache h now = some d) :
    ∃ p ∈ cache, p.2.data = d := by
  unfold cacheFresh at hcf
  rcases hg : mapGet cache h with _ | e
  · rw [hg] at hcf
    simp at hcf
  · rw [hg] at hcf
    by_cases ht : now - e.timestamp < CACHE_DURATION
    · simp [ht] at hcf
      obtain ⟨k', hk'⟩ := mapGet_mem cache h e hg
      exact ⟨(k', e), hk', hcf⟩
    · simp [ht] at hcf

/-- C9 (amended): every result `handleContentAnalysis` returns with the
local simulated analysis as backend — from any state whose cached payloads
are well-formed — has confidence in `[0,1]` (the simulated path clamps it
to `[0.3, 0.9]`) and sentiment in {positive, negative, neutral}.  The
original claim over *every* backend fails: `parseAIResponse` (used by the
direct-API paths) passes the parsed `sentiment` and `confidence` through
unvalidated, see the counterexample. -/
theorem simulatedPath_results_good
    (st : AIServiceState) (data d : ExtractedContent) (tc tr ts : Int)
    (r : ContentAnalysis)
    (hcache : CacheGood st.cache)
    (hres : (handleContentAnalysis st data tc tr ts
      (Except.ok (simulateAIAnalysis d))).1 = Except.ok r) :
    GoodAnalysis r := by
  rcases hcf : cacheFresh st.cache (generateContentHash data.mainContent) tc with _ | dta
  · by_cases hr : (checkRateLimit tr st.rateLimiter).1 = false
    · rw [handleContentAnalysis_miss_reject st data tc tr ts _ hcf hr] at hres
      simp at hres
    · have hr' : (checkRateLimit tr st.rateLimiter).1 = true := by
        cases hx : (checkRateLimit tr st.rateLimiter).1
        · exact absurd hx hr
        · rfl
      rw [handleContentAnalysis_miss_admit_ok st data tc tr ts _ hcf hr'] at hres
      simp at hres
      rw [← hres]
      exact simulateAIAnalysis_good d
  · rw [handleContentAnalysis_hit st data tc tr ts _ dta hcf] at hres
    simp at hres
    obtain ⟨p, hp, hd⟩ := cacheFresh_some_mem st.cache _ tc dta hcf
    have hg := hcache p hp
    rw [hd, hres] at hg
    exact hg

/-- Witness for C9's amended theorem: a well-formed cached payload is
returned well-formed. -/
theorem simulatedPath_results_good_witness :
    CacheGood (AIServiceState.mk []
      [(generateContentHash "hello", ⟨sampleAnalysis, 0⟩)]).cache ∧
    (handleContentAnalysis
      ⟨[], [(generateContentHash "hello", ⟨sampleAnalysis, 0⟩)]⟩
      (sampleData "hello") 0 0 0
      (Except.ok (simulateAIAnalysis (sampleData "x")))).1 =
      Except.ok sampleAnalysis ∧
    GoodAnalysis sampleAnalysis :=
  ⟨by unfold CacheGood GoodAnalysis; decide, by decide,
   simulatedPath_results_good
     ⟨[], [(generateContentHash "hello", ⟨sampleAnalysis, 0⟩)]⟩
     (sampleData "hello") (sampleData "x") 0 0 0 sampleAnalysis
     (by unfold CacheGood GoodAnalysis; decide) (by decide)⟩

/-- C9 counterexample: with the direct-API backend — `parseAIResponse`
applied to a parsed response whose `sentiment` is `"mixed"` and whose
`confidence` is the number 2 — `handleContentAnalysis` returns an
`AnalysisResult` whose confidence exceeds 1 and whose sentiment is none of
positive/negative/neutral, refuting the claim as stated. -/
theorem parseAIResponse_violates_bounds :
    (handleContentAnalysis emptyState (sampleData "x") 0 0 0
      (Except.ok (parseAIResponse (some ⟨some "s", some "mixed", some ["k"],
        some 2, some ["a"], some ["c"]⟩)))).1 =
      Except.ok ⟨"s", "mixed", ["k"], 2, ["a"], ["c"]⟩ ∧
    ¬ ((⟨"s", "mixed", ["k"], 2, ["a"], ["c"]⟩ : ContentAnalysis).confidence ≤ 1) ∧
    ¬ ((⟨"s", "mixed", ["k"], 2, ["a"], ["c"]⟩ : ContentAnalysis).sentiment = "positive" ∨
       (⟨"s", "mixed", ["k"], 2, ["a"], ["c"]⟩ : ContentAnalysis).sentiment = "negative" ∨
       (⟨"s", "mixed", ["k"], 2, ["a"], ["c"]⟩ : ContentAnalysis).sentiment = "neutral") := by
  decide

/-! ## The fixed-window run of distinct-content calls -/

theorem handle_step_admit (cache : List (String × CacheEntry)) (t1 : Int)
    (k : Nat) (c : CallSpec) (hk : k < RATE_LIMIT)
    (hmiss : mapGet cache (hashOf c) = none)
    (hwin : ¬ (t1 < c.tRate - 60000)) :
    handleContentAnalysis ⟨[(userKey, ⟨t1, k⟩)], cache⟩ c.data c.tCache c.tRate
      c.tStore (Except.ok c.result) =
      (Except.ok c.result,
       ⟨[(userKey, ⟨t1, k + 1⟩)],
        mapSet cache (hashOf c) ⟨c.result, c.tStore⟩⟩) := by
  unfold hashOf at hmiss ⊢
  have hcf : cacheFresh cache (generateContentHash c.data.mainContent) c.tCache = none := by
    simp [cacheFresh, hmiss]
  have hsweep : sweepStale c.tRate [(userKey, ⟨t1, k⟩)] = [(userKey, ⟨t1, k⟩)] := by
    simp only [sweepStale, List.filter_cons, List.filter_nil, decide_not]
    simp [hwin]
  have hget : mapGet (sweepStale c.tRate [(userKey, ⟨t1, k⟩)]) userKey =
      some ⟨t1, k⟩ := by
    rw [hsweep]
    simp [mapGet]
  have hcrl := checkRateLimit_increment c.tRate [(userKey, ⟨t1, k⟩)] ⟨t1, k⟩ hget hk
  have hrl2 : (checkRateLimit c.tRate [(userKey, ⟨t1, k⟩)]).2 =
      [(userKey, ⟨t1, k + 1⟩)] := by
    rw [hcrl, hsweep]
    simp [mapSet]
  have h := handleContentAnalysis_miss_admit_ok ⟨[(userKey, ⟨t1, k⟩)], cache⟩
    c.data c.tCache c.tRate c.tStore c.result hcf (by rw [hcrl])
  rw [h, hrl2]

theorem handle_step_reject (cache : List (String × CacheEntry)) (t1 : Int)
    (k : Nat) (c : CallSpec) (hk : k ≥ RATE_LIMIT)
    (hmiss : mapGet cache (hashOf c) = none)
    (hwin : ¬ (t1 < c.tRate - 60000)) :
    handleContentAnalysis ⟨[(userKey, ⟨t1, k⟩)], cache⟩ c.data c.tCache c.tRate
      c.tStore (Except.ok c.result) =
      (Except.error AnalysisError.rateLimited,
       ⟨[(userKey, ⟨t1, k⟩)], cache⟩) := by
  unfold hashOf at hmiss
  have hcf : cacheFresh cache (generateContentHash c.data.mainContent) c.tCache = none := by
    simp [cacheFresh, hmiss]
  have hsweep : sweepStale c.tRate [(userKey, ⟨t1, k⟩)] = [(userKey, ⟨t1, k⟩)] := by
    simp only [sweepStale, List.filter_cons, List.filter_nil, decide_not]
    simp [hwin]
  have hget : mapGet (sweepStale c.tRate [(userKey, ⟨t1, k⟩)]) userKey =
      some ⟨t1, k⟩ := by
    rw [hsweep]
    simp [mapGet]
  have hcrl := checkRateLimit_reject c.tRate [(userKey, ⟨t1, k⟩)] ⟨t1, k⟩ hget hk
  have h := handleContentAnalysis_miss_reject ⟨[(userKey, ⟨t1, k⟩)], cache⟩
    c.data c.tCache c.tRate c.tStore (Except.ok c.result) hcf (by rw [hcrl])
  rw [h, hcrl, hsweep]

theorem expectedResults_congr_ge (l : List CallSpec) : ∀ k k' : Nat,
    RATE_LIMIT ≤ k → RATE_LIMIT ≤ k' →
    expectedResults k l = expectedResults k' l := by
  induction l with
  | nil => intros; rfl
  | cons c rest ih =>
    intro k k' hk hk'
    simp only [expectedResults, if_neg (Nat.not_lt.mpr hk),
      if_neg (Nat.not_lt.mpr hk')]
    rw [ih (k + 1) (k' + 1) (Nat.le_succ_of_le hk) (Nat.le_succ_of_le hk')]

theorem runAnalyses_window (calls : List CallSpec) : ∀ (k : Nat) (t1 : Int)
    (cache : List (String × CacheEntry)),
    (∀ c ∈ calls, mapGet cache (hashOf c) = none) →
    List.Pairwise (fun x y => hashOf x ≠ hashOf y) calls →
    (∀ c ∈ calls, c.tRate ≤ t1 + 60000) →
    (runAnalyses ⟨[(userKey, ⟨t1, k⟩)], cache⟩ calls).1 = expectedResults k calls := by
  induction calls with
  | nil => intros; rfl
  | cons c rest ih =>
    intro k t1 cache hmiss hdist hwin
    have hdist' := List.pairwise_cons.mp hdist
    have hwin_c : ¬ (t1 < c.tRate - 60000) := by
      have := hwin c (List.mem_cons_self c rest)
      omega
    have hmiss_c := hmiss c (List.mem_cons_self c rest)
    have hmiss' : ∀ c' ∈ rest,
        mapGet (mapSet cache (hashOf c) ⟨c.result, c.tStore⟩) (hashOf c') = none := by
      intro c' hc'
      rw [mapGet_mapSet_ne cache (hashOf c) (hashOf c') _
        (Ne.symm (hdist'.1 c' hc'))]
      exact hmiss c' (List.mem_cons_of_mem c hc')
    have hwin' : ∀ c' ∈ rest, c'.tRate ≤ t1 + 60000 :=
      fun c' hc' => hwin c' (List.mem_cons_of_mem c hc')
    by_cases hklt : k < RATE_LIMIT
    · have hstep := handle_step_admit cache t1 k c hklt hmiss_c hwin_c
      simp only [runAnalyses, hstep, expectedResults, if_pos hklt]
      exact congrArg (Except.ok c.result :: ·)
        (ih (k + 1) t1 _ hmiss' hdist'.2 hwin')
    · have hstep := handle_step_reject cache t1 k c (Nat.le_of_not_lt hklt)
        hmiss_c hwin_c
      simp only [runAnalyses, hstep, expectedResults, if_neg hklt]
      rw [ih k t1 cache (fun c' hc' => hmiss c' (List.mem_cons_of_mem c hc'))
        hdist'.2 hwin']
      exact congrArg (Except.error AnalysisError.rateLimited :: ·)
        (expectedResults_congr_ge rest k (k + 1) (Nat.le_of_not_lt hklt)
          (Nat.le_succ_of_le (Nat.le_of_not_lt hklt)))

theorem expectedResults_get? (l : List CallSpec) : ∀ k i : Nat,
    (expectedResults k l).get? i = (l.get? i).map
      (fun c => if k + i < RATE_LIMIT then Except.ok c.result
        else Except.error AnalysisError.rateLimited) := by
  induction l with
  | nil => intros; rfl
  | cons c rest ih =>
    intro k i
    cases i with
    | zero => simp [expectedResults]
    | succ j =>
      simp only [expectedResults, List.get?_cons_succ, ih (k + 1) j]
      have : k + 1 + j = k + (j + 1) := by omega
      rw [this]

/-- C2: starting from the empty service state, eleven calls with pairwise
distinct content hashes whose rate-limit checks all fall within
`windowStart + 60000` of the first call's (backend succeeding on every
call): calls 1 through 10 are admitted and return their backend results,
and call 11 fails with the rate-limit error. -/
theorem eleven_distinct_calls_hit_rate_limit
    (first : CallSpec) (rest : List CallSpec)
    (hlen : rest.length = 10)
    (hdist : List.Pairwise (fun x y => hashOf x ≠ hashOf y) (first :: rest))
    (hwin : ∀ c ∈ rest, c.tRate ≤ first.tRate + 60000) :
    (∀ i : Nat, i < 10 →
      ((runAnalyses emptyState (first :: rest)).1).get? i =
        ((first :: rest).get? i).map (fun c => Except.ok c.result)) ∧
    ((runAnalyses emptyState (first :: rest)).1).get? 10 =
      some (Except.error AnalysisError.rateLimited) := by
  have hdist' := List.pairwise_cons.mp hdist
  have hcf : cacheFresh emptyState.cache
      (generateContentHash first.data.mainContent) first.tCache = none := rfl
  have hcrl : checkRateLimit first.tRate emptyState.rateLimiter =
      (true, [(userKey, ⟨first.tRate, 1⟩)]) := rfl
  have h1 := handleContentAnalysis_miss_admit_ok emptyState first.data
    first.tCache first.tRate first.tStore first.result hcf (by rw [hcrl])
  have hmiss' : ∀ c ∈ rest,
      mapGet (mapSet emptyState.cache (hashOf first)
        ⟨first.result, first.tStore⟩) (hashOf c) = none := by
    intro c hc
    rw [mapGet_mapSet_ne emptyState.cache (hashOf first) (hashOf c) _
      (Ne.symm (hdist'.1 c hc))]
    rfl
  have hrun : (runAnalyses emptyState (first :: rest)).1 =
      Except.ok first.result :: expectedResults 1 rest := by
    simp only [runAnalyses, h1]
    exact congrArg (Except.ok first.result :: ·)
      (runAnalyses_window rest 1 first.tRate
        (mapSet emptyState.cache (hashOf first) ⟨first.result, first.tStore⟩)
        hmiss' hdist'.2 hwin)
  refine ⟨?_, ?_⟩
  · intro i hi
    rw [hrun]
    cases i with
    | zero => rfl
    | succ j =>
      simp only [List.get?_cons_succ]
      rw [expectedResults_get? rest 1 j]
      have hcond : 1 + j < RATE_LIMIT := by
        simp only [RATE_LIMIT]
        omega
      rcases hg : rest.get? j with _ | c
      · rfl
      · simp [hcond]
  · rw [hrun]
    simp only [List.get?_cons_succ]
    rw [expectedResults_get? rest 1 9]
    have h9 : 9 < rest.length := by omega
    rw [List.get?_eq_get h9]
    have hcond : ¬ (1 + 9 < RATE_LIMIT) := by simp [RATE_LIMIT]
    simp [hcond]

/-- Witness for C2: eleven concrete single-character texts (all distinct
hashes) at time 0; the first and the tenth calls return results, the
eleventh is rejected. -/
theorem eleven_distinct_calls_hit_rate_limit_witness :
    elevenRest.length = 10 ∧
    List.Pairwise (fun x y => hashOf x ≠ hashOf y) (elevenFirst :: elevenRest) ∧
    (∀ c ∈ elevenRest, c.tRate ≤ elevenFirst.tRate + 60000) ∧
    ((runAnalyses emptyState (elevenFirst :: elevenRest)).1).get? 0 =
      ((elevenFirst :: elevenRest).get? 0).map (fun c => Except.ok c.result) ∧
    ((runAnalyses emptyState (elevenFirst :: elevenRest)).1).get? 9 =
      ((elevenFirst :: elevenRest).get? 9).map (fun c => Except.ok c.result) ∧
    ((runAnalyses emptyState (elevenFirst :: elevenRest)).1).get? 10 =
      some (Except.error AnalysisError.rateLimited) :=
  ⟨by decide, by decide, by decide,
   (eleven_distinct_calls_hit_rate_limit elevenFirst elevenRest
     (by decide) (by decide) (by decide)).1 0 (by norm_num),
   (eleven_distinct_calls_hit_rate_limit elevenFirst elevenRest
     (by decide) (by decide) (by decide)).1 9 (by norm_num),
   (eleven_distinct_calls_hit_rate_limit elevenFirst elevenRest
     (by decide) (by decide) (by decide)).2⟩

end AISaaS
